import Mathlib

/-!
Verification development for the `streamlit_poc` repository.

Strings from the Python sources are modelled as `List Char` (via
`String.data` for literals).  Each definition below is a direct shallow
embedding of a helper function or button handler from `src/app.py`,
`src/app2.py` or `src/final_app.py`.  Network traffic, the SMTP library
and the third-party `.msg` parsing library are modelled as explicit
oracle parameters, since the repository code only branches on their
results.
-/

namespace StreamlitPoc

/-! ### Python string primitives

`isPyWs` models the whitespace set stripped by Python's `str.strip()`
for the ASCII inputs handled by this app. -/

def isPyWs (c : Char) : Bool :=
  c = ' ' || c = '\t' || c = '\n' || c = '\r' || c = '\x0b' || c = '\x0c'

/-- Left part of Python `str.strip()`: drop leading whitespace. -/
def lstripL : List Char → List Char
  | [] => []
  | c :: t => if isPyWs c then lstripL t else c :: t

/-- Right part of Python `str.strip()`: drop trailing whitespace. -/
def rstripR : List Char → List Char
  | [] => []
  | c :: t =>
    match rstripR t with
    | [] => if isPyWs c then [] else [c]
    | h :: t2 => c :: h :: t2

/-- Python `str.strip()`. -/
def pyStrip (s : List Char) : List Char := rstripR (lstripL s)

/-- Python `str.split(sep)` for a one-character separator. -/
def pySplit (sep : Char) : List Char → List (List Char)
  | [] => [[]]
  | c :: rest =>
    match pySplit sep rest with
    | [] => [[]]
    | h :: t => if c = sep then [] :: h :: t else (c :: h) :: t

/-- Python `sep.join(parts)`. -/
def pyJoin (sep : List Char) : List (List Char) → List Char
  | [] => []
  | [x] => x
  | x :: y :: rest => x ++ sep ++ pyJoin sep (y :: rest)

/-- Helper for the Python `in` substring test: list-prefix check. -/
def beginsWith : List Char → List Char → Bool
  | [], _ => true
  | _ :: _, [] => false
  | a :: xs, b :: ys => a = b && beginsWith xs ys

/-- Python `needle in hay` substring test. -/
def strContains (needle : List Char) : List Char → Bool
  | [] => needle.isEmpty
  | c :: rest => beginsWith needle (c :: rest) || strContains needle rest

/-- Python `s.replace(String.singleton c, "")`: remove every occurrence of one char. -/
def removeChar (c : Char) (l : List Char) : List Char :=
  l.filter (fun x => !(x = c : Bool))

/-! ### `app2.py` header parsing helpers -/

/-- Characters allowed inside the regex group `[^<>]` of `r'<([^<>]+)>'`. -/
def angleInnerChar (d : Char) : Bool := !(d = '<' : Bool) && !(d = '>' : Bool)

/-- `re.search(r'<([^<>]+)>', s)`: leftmost match of an angle-bracketed
run of non-bracket characters; returns the captured group. -/
def findAngle : List Char → Option (List Char)
  | [] => none
  | c :: rest =>
    if c = '<' then
      match rest.dropWhile angleInnerChar with
      | d :: _ =>
        if d = '>' then
          if (rest.takeWhile angleInnerChar).isEmpty then findAngle rest
          else some (rest.takeWhile angleInnerChar)
        else findAngle rest
      | [] => findAngle rest
    else findAngle rest

/-- `clean_header_text` from `src/app2.py`: remove NUL bytes and U+FFFD
replacement characters, then strip. -/
def clean_header_text (t : List Char) : List Char :=
  if t.isEmpty then [] else pyStrip (removeChar '�' (removeChar '\x00' t))

/-- Step 1 of `clean_email_string`: `raw_str.replace(";", ",")`. -/
def replaceSemi (l : List Char) : List Char :=
  l.map (fun c => if c = ';' then ',' else c)

/-- Step 2 of `clean_email_string` (and the whole body of
`validate_email_list` in `src/app.py`):
`[p.strip() for p in s.split(",") if p.strip()]`. -/
def stripSplitCommas (r : List Char) : List (List Char) :=
  ((pySplit ',' r).map pyStrip).filter (fun e => !e.isEmpty)

/-- The `for part in parts` loop of `clean_email_string`: keep the
angle-bracket capture when the regex matches, else keep the part only
when it contains an `@`. -/
def collectEmails : List (List Char) → List (List Char)
  | [] => []
  | part :: rest =>
    match findAngle part with
    | some inner => pyStrip inner :: collectEmails rest
    | none =>
      if '@' ∈ part then pyStrip part :: collectEmails rest
      else collectEmails rest

/-- `clean_email_string` from `src/app2.py`. -/
def clean_email_string (raw : List Char) : List (List Char) :=
  if raw.isEmpty then []
  else collectEmails (stripSplitCommas (replaceSemi (clean_header_text raw)))

/-- `validate_email_list` from `src/app.py`:
`[] if not raw else [e.strip() for e in raw.split(",") if e.strip()]`. -/
def validate_email_list (raw : List Char) : List (List Char) :=
  if raw.isEmpty then [] else stripSplitCommas raw

/-! ### Data structures shared by `app.py` and `app2.py` -/

/-- The `Attachment` dataclass (bytes modelled as `List Nat`). -/
structure Attachment where
  filename : List Char
  content_bytes : List Nat
  mime_type : List Char
deriving DecidableEq

/-- The `GeneratedEmail` dataclass. -/
structure GeneratedEmail where
  sender : List Char
  «to» : List (List Char)
  cc : List (List Char)
  subject : List Char
  body : List Char
  attachments : List Attachment
deriving DecidableEq

/-! ### SMTP dispatch (`send_email_via_smtp`)

The five environment variables read at module load.  `os.getenv` yields
`None` when unset; Python truthiness treats both `None` and the empty
string as false, which `optFalsy` captures. -/

structure SmtpEnv where
  SMTP_HOST : Option (List Char)
  SMTP_PORT : Option (List Char)
  SMTP_USER : Option (List Char)
  SMTP_PASS : Option (List Char)
  SENDER_EMAIL : Option (List Char)
deriving DecidableEq

/-- `not os.getenv(...)`: unset or empty. -/
def optFalsy : Option (List Char) → Bool
  | none => true
  | some s => s.isEmpty

/-- `os.getenv("SMTP_PORT", "587")`: the port string with its default. -/
def smtpPort (env : SmtpEnv) : List Char := env.SMTP_PORT.getD (("587").data)

/-- `SENDER_EMAIL or "success@solis.co"` (Python `or` on a falsy value). -/
def senderOrDefault (env : SmtpEnv) (dflt : List Char) : List Char :=
  match env.SENDER_EMAIL with
  | none => dflt
  | some s => if s.isEmpty then dflt else s

/-- Result of one dispatch attempt: the `(bool, str)` pair returned by
`send_email_via_smtp`, plus whether the SMTP branch (network I/O) was
entered at all. -/
structure SendOutcome where
  success : Bool
  message : List Char
  networkAttempted : Bool
deriving DecidableEq

/-- `send_email_via_smtp` from `src/app.py` (identical in `src/app2.py`).
The SMTP session (`starttls`/`login`/`send_message`) is abstracted as the
oracle `net`; the `try/except` around it maps an exception `e` to
`(False, "Failed to send email: " + e)` and a normal return to
`(True, "Email sent to " + ", ".join(to + cc))`.  Message construction
(`EmailMessage`, MIME parts) has no observable effect on the returned
pair and is not modelled. -/
def send_email_via_smtp (env : SmtpEnv)
    (net : GeneratedEmail → Except (List Char) Unit)
    (email_obj : GeneratedEmail) : SendOutcome :=
  if optFalsy env.SMTP_HOST || optFalsy env.SMTP_USER || optFalsy env.SMTP_PASS then
    { success := true
      message := (("Simulated sent to ").data) ++ pyJoin ((", ").data) email_obj.«to»
        ++ ((" (SMTP Not Configured)").data)
      networkAttempted := false }
  else
    match net email_obj with
    | Except.ok _ =>
      { success := true
        message := (("Email sent to ").data)
          ++ pyJoin ((", ").data) (email_obj.«to» ++ email_obj.cc)
        networkAttempted := true }
    | Except.error e =>
      { success := false
        message := (("Failed to send email: ").data) ++ e
        networkAttempted := true }

/-! ### The dashboard Submit handler -/

/-- The draft-related session-state fields touched by the dashboard. -/
structure DraftState where
  editable_to : List Char
  editable_cc : List Char
  editable_subject : List Char
  editable_body : List Char
  attachments : List Attachment
deriving DecidableEq

inductive SubmitOutcome where
  | validationError (msg : List Char)
  | dispatched (email : GeneratedEmail) (result : SendOutcome)
deriving DecidableEq

/-- The Submit button handler of `page_dashboard` in `src/app.py`
(lines 578-599): parse the editable To/CC fields, block with
"Recipient required." when the To list is empty, otherwise build the
email and dispatch it.  The handler writes no session state. -/
def submitClick (env : SmtpEnv) (net : GeneratedEmail → Except (List Char) Unit)
    (sender : List Char) (s : DraftState) : DraftState × SubmitOutcome :=
  let final_to := validate_email_list s.editable_to
  let final_cc := validate_email_list s.editable_cc
  if final_to.isEmpty then
    (s, SubmitOutcome.validationError (("Recipient required.").data))
  else
    let email : GeneratedEmail :=
      { sender := sender, «to» := final_to, cc := final_cc,
        subject := s.editable_subject, body := s.editable_body,
        attachments := s.attachments }
    (s, SubmitOutcome.dispatched email (send_email_via_smtp env net email))

/-- The Submit button handler of `page_dashboard` in `src/app2.py`
(lines 674-696): same shape, but recipients are parsed with
`clean_email_string` and the sender is `SENDER_EMAIL or "success@solis.co"`. -/
def submitClick2 (env : SmtpEnv) (net : GeneratedEmail → Except (List Char) Unit)
    (s : DraftState) : DraftState × SubmitOutcome :=
  let final_to := clean_email_string s.editable_to
  let final_cc := clean_email_string s.editable_cc
  if final_to.isEmpty then
    (s, SubmitOutcome.validationError (("Recipient required.").data))
  else
    let email : GeneratedEmail :=
      { sender := senderOrDefault env (("success@solis.co").data),
        «to» := final_to, cc := final_cc,
        subject := s.editable_subject, body := s.editable_body,
        attachments := s.attachments }
    (s, SubmitOutcome.dispatched email (send_email_via_smtp env net email))

/-! ### The `.msg` upload handler of `app2.py` -/

/-- The draft-related session-state fields of `src/app2.py`. -/
structure AppState2 where
  generated_email : Option GeneratedEmail
  editable_to : List Char
  editable_cc : List Char
  editable_subject : List Char
  editable_body : List Char
  attachments : List Attachment
  msg_processed : Bool
deriving DecidableEq

inductive UploadOutcome where
  | updated
  | parseError (msg : List Char)
deriving DecidableEq

/-- The upload block of `page_dashboard` in `src/app2.py` (lines
557-572).  `parse_msg_file` wraps the third-party `extract_msg` library
in `try/except` and re-raises every exception, so its result is modelled
as `Except`: an exception `e` is caught by the handler and shown as
`"Failed to parse file: " + e` with no session-state write; a parsed
`GeneratedEmail` updates all seven draft fields. -/
def handleMsgUpload (parseResult : Except (List Char) GeneratedEmail)
    (s : AppState2) : AppState2 × UploadOutcome :=
  match parseResult with
  | Except.error e =>
    (s, UploadOutcome.parseError ((("Failed to parse file: ").data) ++ e))
  | Except.ok g =>
    ({ generated_email := some g
       editable_body := g.body
       editable_subject := g.subject
       editable_to := pyJoin ((", ").data) g.«to»
       editable_cc := pyJoin ((", ").data) g.cc
       attachments := g.attachments
       msg_processed := true }, UploadOutcome.updated)

/-! ### Login (`page_login`, identical in all three variants) -/

inductive Page where
  | login
  | dashboard
deriving DecidableEq

structure AuthState where
  authenticated : Bool
  username : List Char
  page : Page
deriving DecidableEq

inductive LoginOutcome where
  | success
  | invalidCredentials
deriving DecidableEq

/-- The credential test of `page_login`:
`(u == "Ayush" or "demo" in u) and (p == "demo123" or p == "demo")`. -/
def loginCheck (u p : List Char) : Bool :=
  ((u = (("Ayush").data) : Bool) || strContains (("demo").data) u) &&
  ((p = (("demo123").data) : Bool) || (p = (("demo").data) : Bool))

/-- The login form submit handler: on success set `authenticated`,
set `username = "Ayush"` and navigate to the dashboard; otherwise show
"Invalid credentials." and leave the state untouched. -/
def loginSubmit (u p : List Char) (s : AuthState) : AuthState × LoginOutcome :=
  if loginCheck u p then
    ({ authenticated := true, username := (("Ayush").data), page := Page.dashboard },
      LoginOutcome.success)
  else
    (s, LoginOutcome.invalidCredentials)

/-! ### Attachment removal (both `app.py` and `app2.py`)

`[a for i, a in enumerate(current_attachments) if i not in to_remove]`. -/

def removeIndices (toRemove : List Nat) (l : List α) : List α :=
  (l.enum.filter (fun p => !(toRemove.contains p.1))).map Prod.snd

/-! ### Kanban state of `final_app.py` -/

/-- A record of the `emails` demo list. -/
structure EmailRec where
  id : Int
  sender : List Char
  subject : List Char
  date : List Char
  body : List Char
deriving DecidableEq

/-- A response record (`responses_generated` entries carry a
`linked_email_id`; the demo records of the other stages do not, hence
the `Option`). -/
structure Rec where
  id : Int
  linked_email_id : Option Int
  recipient : List Char
  subject : List Char
  body : List Char
deriving DecidableEq

/-- The session-state fields of `src/final_app.py` relevant to the
kanban stage lists. -/
structure KanbanState where
  emails : List EmailRec
  responses_generated : List Rec
  responses_approved : List Rec
  responses_updated : List Rec
  responses_sent : List Rec
  sel_gen_id : Option Int
deriving DecidableEq

/-- `next((i for i, r in enumerate(l) if r['id'] == gid), None)`. -/
def findIndexById (gid : Int) : List Rec → Option Nat
  | [] => none
  | r :: t => if r.id = gid then some 0 else (findIndexById gid t).map (· + 1)

/-- The Accept button handler of tab 2 in `page_dashboard` of
`src/final_app.py` (lines 481-487): locate the selected record in
`responses_generated`, insert it at the head of `responses_approved`,
pop it from `responses_generated`, clear the selection.  The handler is
only reachable when a selection exists and resolves to an index. -/
def acceptAction (s : KanbanState) : KanbanState :=
  match s.sel_gen_id with
  | none => s
  | some gid =>
    match findIndexById gid s.responses_generated with
    | none => s
    | some idx =>
      match s.responses_generated[idx]? with
      | none => s
      | some curr =>
        { s with
          responses_approved := curr :: s.responses_approved
          responses_generated := s.responses_generated.eraseIdx idx
          sel_gen_id := none }

/-! ### Small generic helper lemmas -/

lemma listIsEmpty_true (l : List α) : l.isEmpty = true ↔ l = [] := by
  cases l <;> simp

lemma listIsEmpty_false (l : List α) : l.isEmpty = false ↔ l ≠ [] := by
  cases l <;> simp

/-! ### Claim theorems (first batch) -/

/-- Claim C5: header address parsing of
`"Jane Doe <jane@x.com>; bob@y.com"` yields exactly
`["jane@x.com", "bob@y.com"]`. -/
theorem claim5_theorem :
    clean_email_string (("Jane Doe <jane@x.com>; bob@y.com").data)
      = [(("jane@x.com").data), (("bob@y.com").data)] := by decide

/-- Claim C7: when `.msg` parsing raises, the upload handler surfaces
the error and leaves every draft-related session field unchanged; no
draft is created or updated. -/
theorem claim7_theorem (e : List Char) (s : AppState2) :
    handleMsgUpload (Except.error e) s
      = (s, UploadOutcome.parseError ((("Failed to parse file: ").data) ++ e)) := rfl

/-- Claim C2: when the parsed To list is empty, Submit reports the
validation error and changes no draft field, in both `app.py`
(`validate_email_list`) and `app2.py` (`clean_email_string`); and any
dispatched email has a non-empty To list, so dispatch is never invoked
with an empty recipient list. -/
theorem claim2_theorem :
    (∀ (env : SmtpEnv) (net : GeneratedEmail → Except (List Char) Unit)
       (sender : List Char) (s : DraftState),
       validate_email_list s.editable_to = [] →
       submitClick env net sender s
         = (s, SubmitOutcome.validationError ((("Recipient required.").data)))) ∧
    (∀ (env : SmtpEnv) (net : GeneratedEmail → Except (List Char) Unit)
       (s : DraftState),
       clean_email_string s.editable_to = [] →
       submitClick2 env net s
         = (s, SubmitOutcome.validationError ((("Recipient required.").data)))) ∧
    (∀ (env : SmtpEnv) (net : GeneratedEmail → Except (List Char) Unit)
       (sender : List Char) (s s2 : DraftState) (e : GeneratedEmail) (r : SendOutcome),
       submitClick env net sender s = (s2, SubmitOutcome.dispatched e r) → e.«to» ≠ []) ∧
    (∀ (env : SmtpEnv) (net : GeneratedEmail → Except (List Char) Unit)
       (s s2 : DraftState) (e : GeneratedEmail) (r : SendOutcome),
       submitClick2 env net s = (s2, SubmitOutcome.dispatched e r) → e.«to» ≠ []) := by
  refine ⟨?_, ?_, ?_, ?_⟩
  · intro env net sender s h
    simp [submitClick, h]
  · intro env net s h
    simp [submitClick2, h]
  · intro env net sender s s2 e r h
    unfold submitClick at h
    by_cases hc : (validate_email_list s.editable_to).isEmpty
    · simp [hc] at h
    · simp [hc] at h
      have he : e.«to» = validate_email_list s.editable_to := by
        rw [← h.2.1]
      rw [he]
      exact (listIsEmpty_false _).mp (Bool.not_eq_true _ ▸ (by simpa using hc))
  · intro env net s s2 e r h
    unfold submitClick2 at h
    by_cases hc : (clean_email_string s.editable_to).isEmpty
    · simp [hc] at h
    · simp [hc] at h
      have he : e.«to» = clean_email_string s.editable_to := by
        rw [← h.2.1]
      rw [he]
      exact (listIsEmpty_false _).mp (Bool.not_eq_true _ ▸ (by simpa using hc))

/-- Witness for C2 at a concrete empty To field. -/
theorem claim2_witness :
    validate_email_list (([] : List Char)) = [] ∧
    submitClick ⟨none, none, none, none, none⟩ (fun _ => Except.ok ()) (("x").data)
        ⟨[], [], [], [], []⟩
      = (⟨[], [], [], [], []⟩,
         SubmitOutcome.validationError ((("Recipient required.").data))) :=
  ⟨by decide, claim2_theorem.1 _ _ _ _ (by decide)⟩

/-- Claim C3 (amended): if any of SMTP host, username or password is
unset or empty, dispatch returns a simulated success without entering
the network branch.  (The claim as stated names "the first three of
host, port, username, password, sender"; the code never treats the port
as required — see `claim3_counterexample`.) -/
theorem claim3_theorem (env : SmtpEnv)
    (net : GeneratedEmail → Except (List Char) Unit) (email : GeneratedEmail)
    (h : optFalsy env.SMTP_HOST = true ∨ optFalsy env.SMTP_USER = true ∨
         optFalsy env.SMTP_PASS = true) :
    send_email_via_smtp env net email =
      { success := true
        message := (("Simulated sent to ").data) ++ pyJoin ((", ").data) email.«to»
          ++ ((" (SMTP Not Configured)").data)
        networkAttempted := false } := by
  have hb : (optFalsy env.SMTP_HOST || optFalsy env.SMTP_USER ||
      optFalsy env.SMTP_PASS) = true := by
    rcases h with h | h | h <;> simp [h]
  simp [send_email_via_smtp, hb]

/-- Witness for C3 at a fully unset environment. -/
theorem claim3_witness :
    optFalsy (⟨none, none, none, none, none⟩ : SmtpEnv).SMTP_HOST = true ∧
    send_email_via_smtp ⟨none, none, none, none, none⟩ (fun _ => Except.ok ())
        ⟨(("a@b.c").data), [(("to@x.y").data)], [], [], [], []⟩
      = { success := true
          message := (("Simulated sent to ").data)
            ++ pyJoin ((", ").data) [(("to@x.y").data)]
            ++ ((" (SMTP Not Configured)").data)
          networkAttempted := false } :=
  ⟨rfl, claim3_theorem _ _ _ (Or.inl rfl)⟩

/-- Counterexample for C3 as stated: with the port variable absent
(`SMTP_PORT = none`, so the port is only defaulted to 587) but host,
username and password configured, dispatch enters the SMTP network
branch — it does not return a simulated result, contradicting
"absence of any of the first three of host, port, username, ..."
forcing simulation. -/
theorem claim3_counterexample :
    (⟨some (("smtp.example.com").data), none, some (("user").data),
       some (("pw").data), some (("from@x.y").data)⟩ : SmtpEnv).SMTP_PORT = none ∧
    (send_email_via_smtp
        ⟨some (("smtp.example.com").data), none, some (("user").data),
          some (("pw").data), some (("from@x.y").data)⟩
        (fun _ => Except.ok ())
        ⟨(("from@x.y").data), [(("to@x.y").data)], [], [], [], []⟩).networkAttempted
      = true := by
  exact ⟨rfl, rfl⟩

/-- Counterexample for C9 as stated: the input `("demo", "demo")`
differs from the fixed demo pair `("Ayush", "demo123")` yet the login
submit succeeds. -/
theorem claim9_counterexample :
    (loginSubmit (("demo").data) (("demo").data)
        ⟨false, (("Guest").data), Page.login⟩).2 = LoginOutcome.success ∧
    ¬((("demo").data) = (("Ayush").data) ∧ (("demo").data) = (("demo123").data)) := by
  decide

/-- Claim C9 (amended): login succeeds exactly when the username is
`"Ayush"` or contains `"demo"`, and the password is `"demo123"` or
`"demo"`; on success it sets `authenticated`, `username = "Ayush"` and
navigates to the dashboard, otherwise it reports invalid credentials
and leaves the state unchanged. -/
theorem claim9_theorem (u p : List Char) (s : AuthState) :
    ((loginSubmit u p s).2 = LoginOutcome.success ↔
      ((u = (("Ayush").data) ∨ strContains (("demo").data) u = true) ∧
       (p = (("demo123").data) ∨ p = (("demo").data)))) ∧
    ((loginSubmit u p s).2 = LoginOutcome.success →
      (loginSubmit u p s).1 = ⟨true, (("Ayush").data), Page.dashboard⟩) ∧
    ((loginSubmit u p s).2 = LoginOutcome.invalidCredentials →
      (loginSubmit u p s).1 = s) := by
  by_cases h : loginCheck u p = true
  · have hiff : (u = (("Ayush").data) ∨ strContains (("demo").data) u = true) ∧
        (p = (("demo123").data) ∨ p = (("demo").data)) := by
      have := h
      simp only [loginCheck, Bool.and_eq_true, Bool.or_eq_true,
        decide_eq_true_eq] at this
      exact this
    refine ⟨?_, ?_, ?_⟩
    · simp [loginSubmit, h, hiff]
    · intro _; simp [loginSubmit, h]
    · intro hbad; simp [loginSubmit, h] at hbad
  · have hiff : ¬((u = (("Ayush").data) ∨ strContains (("demo").data) u = true) ∧
        (p = (("demo123").data) ∨ p = (("demo").data))) := by
      intro hcontra
      apply h
      simp only [loginCheck, Bool.and_eq_true, Bool.or_eq_true,
        decide_eq_true_eq]
      exact hcontra
    refine ⟨?_, ?_, ?_⟩
    · simp [loginSubmit, h, hiff]
    · intro hbad; simp [loginSubmit, h] at hbad
    · intro _; simp [loginSubmit, h]

/-- Witness for C9 at the fixed demo pair. -/
theorem claim9_witness :
    (loginSubmit (("Ayush").data) (("demo123").data)
        ⟨false, (("Guest").data), Page.login⟩).2 = LoginOutcome.success :=
  (claim9_theorem _ _ _).1.mpr (by decide)

/-- Counterexample for C1 as stated: `validate_email_list` (used by the
Submit path of `src/app.py`) keeps the entry `"foo"` even though it
contains no `"@"`. -/
theorem claim1_counterexample :
    validate_email_list (("foo").data) = [(("foo").data)] ∧
    ¬('@' ∈ (("foo").data)) := by decide

/-- Counterexample for C6 as stated: parsing `"<abc>"` with
`clean_email_string` yields `["abc"]`, but joining with `", "` and
re-parsing yields `[]`, so re-parsing the join does not reproduce the
first parse. -/
theorem claim6_counterexample :
    clean_email_string (("<abc>").data) = [(("abc").data)] ∧
    clean_email_string (pyJoin ((", ").data) (clean_email_string (("<abc>").data)))
      = [] ∧
    clean_email_string (pyJoin ((", ").data) (clean_email_string (("<abc>").data)))
      ≠ clean_email_string (("<abc>").data) := by decide

/-! ### Kanban Accept lemmas -/

/-- When the ids of a list are pairwise distinct and `r` is a member,
the first-index search by `r.id` finds exactly `r`, and popping that
index removes `r` and only `r`. -/
lemma findIndexById_spec :
    ∀ (l : List Rec) (r : Rec), r ∈ l → (l.map Rec.id).Nodup →
      ∃ idx, findIndexById r.id l = some idx ∧ l[idx]? = some r ∧
        (l.eraseIdx idx).length + 1 = l.length ∧ r ∉ l.eraseIdx idx := by
  intro l
  induction l with
  | nil => intro r hr _; simp at hr
  | cons a t ih =>
    intro r hr hnd
    rw [List.map_cons, List.nodup_cons] at hnd
    obtain ⟨ha, hnd2⟩ := hnd
    by_cases hid : a.id = r.id
    · have har : a = r := by
        rcases List.mem_cons.mp hr with h | h
        · exact h.symm
        · exact absurd (hid ▸ List.mem_map_of_mem Rec.id h) ha
      refine ⟨0, ?_, ?_, ?_, ?_⟩
      · simp [findIndexById, hid]
      · simp [har]
      · simp [List.eraseIdx]
      · intro hrt
        exact ha (hid ▸ List.mem_map_of_mem Rec.id (by simpa [List.eraseIdx] using hrt))
    · have hrt : r ∈ t := by
        rcases List.mem_cons.mp hr with h | h
        · exact absurd (congrArg Rec.id h.symm) hid
        · exact h
      obtain ⟨idx, h1, h2, h3, h4⟩ := ih r hrt hnd2
      refine ⟨idx + 1, ?_, ?_, ?_, ?_⟩
      · simp [findIndexById, hid, h1]
      · simpa using h2
      · simpa [List.eraseIdx] using h3
      · intro hcontra
        rcases List.mem_cons.mp (by simpa [List.eraseIdx] using hcontra) with h | h
        · exact hid (by rw [h])
        · exact h4 h

/-- Claim C4: when the selected id is `r.id`, `r` is in the Generated
list and the Generated ids are pairwise distinct (duplicate ids cannot
reach an Accept click, since duplicate widget keys abort rendering of
the Generated tab), Accept shortens Generated by exactly one, removes
`r` from it, prepends `r` to Approved, and leaves `r` in exactly one of
the two lists. -/
theorem claim4_theorem (s : KanbanState) (r : Rec)
    (hsel : s.sel_gen_id = some r.id)
    (hmem : r ∈ s.responses_generated)
    (hnodup : (s.responses_generated.map Rec.id).Nodup) :
    (acceptAction s).responses_generated.length + 1
        = s.responses_generated.length ∧
    r ∉ (acceptAction s).responses_generated ∧
    (acceptAction s).responses_approved = r :: s.responses_approved ∧
    (acceptAction s).responses_approved.length
        = s.responses_approved.length + 1 ∧
    (acceptAction s).responses_approved.head? = some r ∧
    ¬(r ∈ (acceptAction s).responses_generated ∧
      r ∈ (acceptAction s).responses_approved) := by
  obtain ⟨idx, h1, h2, h3, h4⟩ := findIndexById_spec s.responses_generated r hmem hnodup
  have hacc : acceptAction s =
      { s with
        responses_approved := r :: s.responses_approved
        responses_generated := s.responses_generated.eraseIdx idx
        sel_gen_id := none } := by
    simp [acceptAction, hsel, h1, h2]
  rw [hacc]
  refine ⟨h3, h4, rfl, by simp, rfl, ?_⟩
  intro hcontra
  exact h4 hcontra.1

/-- Witness for C4 on a concrete two-record Generated list. -/
theorem claim4_witness :
    ((⟨[], [⟨201, some 101, (("a@x.y").data), (("s1").data), (("b1").data)⟩,
            ⟨202, none, (("c@x.y").data), (("s2").data), (("b2").data)⟩],
       [⟨301, none, (("h@x.y").data), (("s3").data), (("b3").data)⟩], [], [],
       some 201⟩ : KanbanState).sel_gen_id
      = some (⟨201, some 101, (("a@x.y").data), (("s1").data), (("b1").data)⟩ : Rec).id) ∧
    ((acceptAction
        ⟨[], [⟨201, some 101, (("a@x.y").data), (("s1").data), (("b1").data)⟩,
              ⟨202, none, (("c@x.y").data), (("s2").data), (("b2").data)⟩],
          [⟨301, none, (("h@x.y").data), (("s3").data), (("b3").data)⟩], [], [],
          some 201⟩).responses_generated.length + 1
        = (⟨[], [⟨201, some 101, (("a@x.y").data), (("s1").data), (("b1").data)⟩,
                 ⟨202, none, (("c@x.y").data), (("s2").data), (("b2").data)⟩],
            [⟨301, none, (("h@x.y").data), (("s3").data), (("b3").data)⟩], [], [],
            some 201⟩ : KanbanState).responses_generated.length ∧
     (⟨201, some 101, (("a@x.y").data), (("s1").data), (("b1").data)⟩ : Rec) ∉
        (acceptAction
          ⟨[], [⟨201, some 101, (("a@x.y").data), (("s1").data), (("b1").data)⟩,
                ⟨202, none, (("c@x.y").data), (("s2").data), (("b2").data)⟩],
            [⟨301, none, (("h@x.y").data), (("s3").data), (("b3").data)⟩], [], [],
            some 201⟩).responses_generated ∧
     (acceptAction
        ⟨[], [⟨201, some 101, (("a@x.y").data), (("s1").data), (("b1").data)⟩,
              ⟨202, none, (("c@x.y").data), (("s2").data), (("b2").data)⟩],
          [⟨301, none, (("h@x.y").data), (("s3").data), (("b3").data)⟩], [], [],
          some 201⟩).responses_approved
        = ⟨201, some 101, (("a@x.y").data), (("s1").data), (("b1").data)⟩ ::
          (⟨[], [⟨201, some 101, (("a@x.y").data), (("s1").data), (("b1").data)⟩,
                 ⟨202, none, (("c@x.y").data), (("s2").data), (("b2").data)⟩],
             [⟨301, none, (("h@x.y").data), (("s3").data), (("b3").data)⟩], [], [],
             some 201⟩ : KanbanState).responses_approved ∧
     (acceptAction
        ⟨[], [⟨201, some 101, (("a@x.y").data), (("s1").data), (("b1").data)⟩,
              ⟨202, none, (("c@x.y").data), (("s2").data), (("b2").data)⟩],
          [⟨301, none, (("h@x.y").data), (("s3").data), (("b3").data)⟩], [], [],
          some 201⟩).responses_approved.length
        = (⟨[], [⟨201, some 101, (("a@x.y").data), (("s1").data), (("b1").data)⟩,
                 ⟨202, none, (("c@x.y").data), (("s2").data), (("b2").data)⟩],
            [⟨301, none, (("h@x.y").data), (("s3").data), (("b3").data)⟩], [], [],
            some 201⟩ : KanbanState).responses_approved.length + 1 ∧
     (acceptAction
        ⟨[], [⟨201, some 101, (("a@x.y").data), (("s1").data), (("b1").data)⟩,
              ⟨202, none, (("c@x.y").data), (("s2").data), (("b2").data)⟩],
          [⟨301, none, (("h@x.y").data), (("s3").data), (("b3").data)⟩], [], [],
          some 201⟩).responses_approved.head?
        = some ⟨201, some 101, (("a@x.y").data), (("s1").data), (("b1").data)⟩ ∧
     ¬((⟨201, some 101, (("a@x.y").data), (("s1").data), (("b1").data)⟩ : Rec) ∈
          (acceptAction
            ⟨[], [⟨201, some 101, (("a@x.y").data), (("s1").data), (("b1").data)⟩,
                  ⟨202, none, (("c@x.y").data), (("s2").data), (("b2").data)⟩],
              [⟨301, none, (("h@x.y").data), (("s3").data), (("b3").data)⟩], [], [],
              some 201⟩).responses_generated ∧
        (⟨201, some 101, (("a@x.y").data), (("s1").data), (("b1").data)⟩ : Rec) ∈
          (acceptAction
            ⟨[], [⟨201, some 101, (("a@x.y").data), (("s1").data), (("b1").data)⟩,
                  ⟨202, none, (("c@x.y").data), (("s2").data), (("b2").data)⟩],
              [⟨301, none, (("h@x.y").data), (("s3").data), (("b3").data)⟩], [], [],
              some 201⟩).responses_approved)) :=
  ⟨by decide, claim4_theorem _ _ (by decide) (by decide) (by decide)⟩

/-- Claim C10: the record Accept inserts at the head of Approved is the
very record found in Generated (identical in every field), and the
action modifies no stage list other than Generated and Approved. -/
theorem claim10_theorem (s : KanbanState) (gid : Int) (idx : Nat) (curr : Rec)
    (hsel : s.sel_gen_id = some gid)
    (hfind : findIndexById gid s.responses_generated = some idx)
    (hget : s.responses_generated[idx]? = some curr) :
    (acceptAction s).responses_approved = curr :: s.responses_approved ∧
    curr ∈ s.responses_generated ∧
    (acceptAction s).emails = s.emails ∧
    (acceptAction s).responses_updated = s.responses_updated ∧
    (acceptAction s).responses_sent = s.responses_sent := by
  have hmem : curr ∈ s.responses_generated := List.getElem?_mem hget
  have hacc : acceptAction s =
      { s with
        responses_approved := curr :: s.responses_approved
        responses_generated := s.responses_generated.eraseIdx idx
        sel_gen_id := none } := by
    simp [acceptAction, hsel, hfind, hget]
  rw [hacc]
  exact ⟨rfl, hmem, rfl, rfl, rfl⟩

/-- Witness for C10 on a concrete state. -/
theorem claim10_witness :
    ((⟨[], [⟨77, none, (("r@x.y").data), (("s").data), (("b").data)⟩], [], [], [],
        some 77⟩ : KanbanState).sel_gen_id = some 77) ∧
    ((acceptAction
        ⟨[], [⟨77, none, (("r@x.y").data), (("s").data), (("b").data)⟩], [], [], [],
          some 77⟩).responses_approved
        = [⟨77, none, (("r@x.y").data), (("s").data), (("b").data)⟩] ∧
     (⟨77, none, (("r@x.y").data), (("s").data), (("b").data)⟩ : Rec) ∈
        (⟨[], [⟨77, none, (("r@x.y").data), (("s").data), (("b").data)⟩], [], [], [],
           some 77⟩ : KanbanState).responses_generated ∧
     (acceptAction
        ⟨[], [⟨77, none, (("r@x.y").data), (("s").data), (("b").data)⟩], [], [], [],
          some 77⟩).emails = [] ∧
     (acceptAction
        ⟨[], [⟨77, none, (("r@x.y").data), (("s").data), (("b").data)⟩], [], [], [],
          some 77⟩).responses_updated = [] ∧
     (acceptAction
        ⟨[], [⟨77, none, (("r@x.y").data), (("s").data), (("b").data)⟩], [], [], [],
          some 77⟩).responses_sent = []) :=
  ⟨rfl, claim10_theorem _ 77 0 _ rfl (by decide) (by decide)⟩

/-! ### Attachment removal (C8) -/

lemma enumFrom_fst_ge : ∀ (l : List α) (n : Nat), ∀ p ∈ List.enumFrom n l, n ≤ p.1 := by
  intro l
  induction l with
  | nil => intro n p hp; simp [List.enumFrom] at hp
  | cons a t ih =>
    intro n p hp
    rcases List.mem_cons.mp hp with h | h
    · simp [h]
    · exact Nat.le_of_succ_le (ih (n + 1) p h)

lemma enumFrom_map_snd : ∀ (l : List α) (n : Nat),
    (List.enumFrom n l).map Prod.snd = l := by
  intro l
  induction l with
  | nil => intro n; simp [List.enumFrom]
  | cons a t ih => intro n; simp [List.enumFrom, ih]

lemma removeIdx_enumFrom :
    ∀ (l : List α) (n i : Nat),
      ((List.enumFrom n l).filter (fun p => !(p.1 == n + i))).map Prod.snd
        = l.take i ++ l.drop (i + 1) := by
  intro l
  induction l with
  | nil => intro n i; simp [List.enumFrom]
  | cons a t ih =>
    intro n i
    cases i with
    | zero =>
      have hhead : ((n, a).1 == n + 0) = true := by simp
      have hkeep : (List.enumFrom (n + 1) t).filter (fun p => !(p.1 == n + 0))
          = List.enumFrom (n + 1) t := by
        apply List.filter_eq_self.mpr
        intro p hp
        have hge := enumFrom_fst_ge t (n + 1) p hp
        simp only [Bool.not_eq_true', beq_eq_false_iff_ne]
        omega
      simp only [List.enumFrom, List.filter_cons, hhead, Bool.not_true]
      rw [if_neg (by simp), hkeep, enumFrom_map_snd]
      rfl
    | succ j =>
      have hhead : ((n, a).1 == n + (j + 1)) = false := by
        simp only [beq_eq_false_iff_ne]
        omega
      simp only [List.enumFrom, List.filter_cons, hhead, Bool.not_false, if_true,
        List.map_cons]
      rw [show n + (j + 1) = (n + 1) + j from by omega, ih (n + 1) j]
      simp

/-- Claim C8: removing a valid index `i` from a list of length `n`
yields the list with exactly the element at position `i` gone — the
prefix before `i` followed by the suffix after `i`, of length `n - 1`. -/
theorem claim8_theorem (l : List α) (i : Nat) (h : i < l.length) :
    removeIndices [i] l = l.take i ++ l.drop (i + 1) ∧
    (removeIndices [i] l).length + 1 = l.length := by
  have hpred : ∀ p : Nat × α, ([i].contains p.1) = (p.1 == i) := by
    intro p
    cases hb : (p.1 == i) <;> simp [List.contains, List.elem, hb]
  have key : removeIndices [i] l = l.take i ++ l.drop (i + 1) := by
    unfold removeIndices
    have hfc : (List.enum l).filter (fun p => !([i].contains p.1))
        = (List.enum l).filter (fun p => !(p.1 == i)) := by
      apply List.filter_congr
      intro p _
      rw [hpred]
    rw [hfc]
    have := removeIdx_enumFrom l 0 i
    simpa [List.enum] using this
  refine ⟨key, ?_⟩
  rw [key]
  simp only [List.length_append, List.length_take, List.length_drop]
  omega

/-- Witness for C8 at a concrete list and index. -/
theorem claim8_witness :
    1 < ([10, 20, 30] : List Nat).length ∧
    (removeIndices [1] ([10, 20, 30] : List Nat)
        = ([10, 20, 30] : List Nat).take 1 ++ ([10, 20, 30] : List Nat).drop 2 ∧
     (removeIndices [1] ([10, 20, 30] : List Nat)).length + 1
        = ([10, 20, 30] : List Nat).length) :=
  ⟨by decide, claim8_theorem _ 1 (by decide)⟩

/-! ### Lemmas about the `strip` model -/

lemma lstripL_length_le : ∀ l : List Char, (lstripL l).length ≤ l.length := by
  intro l
  induction l with
  | nil => simp [lstripL]
  | cons c t ih =>
    by_cases h : isPyWs c
    · simp only [lstripL, h, if_true, List.length_cons]
      omega
    · simp [lstripL, h]

lemma rstripR_length_le : ∀ l : List Char, (rstripR l).length ≤ l.length := by
  intro l
  induction l with
  | nil => simp [rstripR]
  | cons c t ih =>
    cases hr : rstripR t with
    | nil =>
      by_cases h : isPyWs c <;> simp [rstripR, hr, h]
    | cons h2 t2 =>
      rw [hr] at ih
      simp only [rstripR, hr, List.length_cons]
      simp at ih
      simp
      omega

lemma lstripL_self_or_lt : ∀ l : List Char, lstripL l = l ∨ (lstripL l).length < l.length := by
  intro l
  cases l with
  | nil => left; rfl
  | cons c t =>
    by_cases h : isPyWs c
    · right
      simp only [lstripL, h, if_true, List.length_cons]
      exact Nat.lt_succ_of_le (lstripL_length_le t)
    · left; simp [lstripL, h]

lemma lstripL_cons_head : ∀ (a : Char) (t : List Char),
    lstripL (a :: t) = a :: t → isPyWs a = false := by
  intro a t h
  by_cases hw : isPyWs a
  · exfalso
    rw [lstripL, if_pos hw] at h
    have hle := lstripL_length_le t
    rw [h] at hle
    simp at hle
  · exact Bool.eq_false_iff.mpr hw

lemma lstripL_idem : ∀ l : List Char, lstripL (lstripL l) = lstripL l := by
  intro l
  induction l with
  | nil => rfl
  | cons c t ih =>
    by_cases h : isPyWs c
    · simp [lstripL, h, ih]
    · simp [lstripL, h]

lemma rstripR_idem : ∀ l : List Char, rstripR (rstripR l) = rstripR l := by
  intro l
  induction l with
  | nil => rfl
  | cons c t ih =>
    cases hr : rstripR t with
    | nil =>
      by_cases h : isPyWs c
      · simp [rstripR, hr, h]
      · simp [rstripR, hr, h]
    | cons h2 t2 =>
      rw [hr] at ih
      have h1 : rstripR (c :: t) = c :: h2 :: t2 := by rw [rstripR, hr]
      rw [h1, rstripR, ih]

lemma rstripR_cons_shape (c : Char) (t : List Char) :
    rstripR (c :: t) = [] ∨ ∃ t2, rstripR (c :: t) = c :: t2 := by
  cases hr : rstripR t with
  | nil =>
    by_cases h : isPyWs c
    · left; simp [rstripR, hr, h]
    · right; exact ⟨[], by simp [rstripR, hr, h]⟩
  | cons h2 t2 =>
    right; exact ⟨h2 :: t2, by simp [rstripR, hr]⟩

lemma lstripL_rstripR : ∀ l : List Char, lstripL l = l → lstripL (rstripR l) = rstripR l := by
  intro l h
  cases l with
  | nil => rfl
  | cons a t =>
    have ha := lstripL_cons_head a t h
    rcases rstripR_cons_shape a t with h2 | ⟨t2, h2⟩
    · rw [h2]; rfl
    · rw [h2, lstripL, ha]
      simp

lemma pyStrip_idem : ∀ l : List Char, pyStrip (pyStrip l) = pyStrip l := by
  intro l
  rw [pyStrip, pyStrip, lstripL_rstripR _ (lstripL_idem l), rstripR_idem]

lemma mem_lstripL : ∀ {l : List Char} {c : Char}, c ∈ lstripL l → c ∈ l := by
  intro l
  induction l with
  | nil => intro c h; simp [lstripL] at h
  | cons a t ih =>
    intro c h
    by_cases hw : isPyWs a
    · rw [lstripL, if_pos hw] at h
      exact List.mem_cons_of_mem a (ih h)
    · rw [lstripL, if_neg hw] at h
      exact h

lemma mem_rstripR : ∀ {l : List Char} {c : Char}, c ∈ rstripR l → c ∈ l := by
  intro l
  induction l with
  | nil => intro c h; simp [rstripR] at h
  | cons a t ih =>
    intro c h
    cases hr : rstripR t with
    | nil =>
      rw [rstripR, hr] at h
      by_cases hw : isPyWs a
      · simp [hw] at h
      · simp [hw] at h
        simp [h]
    | cons h2 t2 =>
      rw [rstripR, hr] at h
      rcases List.mem_cons.mp h with h3 | h3
      · simp [h3]
      · exact List.mem_cons_of_mem a (ih (hr ▸ h3))

lemma mem_pyStrip : ∀ {l : List Char} {c : Char}, c ∈ pyStrip l → c ∈ l := by
  intro l c h
  exact mem_lstripL (mem_rstripR h)

lemma rstripR_nil_all_ws : ∀ l : List Char, rstripR l = [] → ∀ c ∈ l, isPyWs c = true := by
  intro l
  induction l with
  | nil => intro _ c hc; simp at hc
  | cons a t ih =>
    intro h c hc
    cases hr : rstripR t with
    | nil =>
      rw [rstripR, hr] at h
      by_cases hw : isPyWs a
      · rcases List.mem_cons.mp hc with h3 | h3
        · rw [h3]; exact hw
        · exact ih hr c h3
      · simp [hw] at h
    | cons h2 t2 =>
      rw [rstripR, hr] at h
      simp at h

lemma mem_lstripL_of_not_ws : ∀ (l : List Char) (c : Char),
    c ∈ l → isPyWs c = false → c ∈ lstripL l := by
  intro l
  induction l with
  | nil => intro c hc _; simp at hc
  | cons a t ih =>
    intro c hc hw
    by_cases hwa : isPyWs a
    · rw [lstripL, if_pos hwa]
      rcases List.mem_cons.mp hc with h3 | h3
      · rw [h3] at hw; rw [hw] at hwa; simp at hwa
      · exact ih c h3 hw
    · rw [lstripL, if_neg hwa]
      exact hc

lemma mem_rstripR_of_not_ws : ∀ (l : List Char) (c : Char),
    c ∈ l → isPyWs c = false → c ∈ rstripR l := by
  intro l
  induction l with
  | nil => intro c hc _; simp at hc
  | cons a t ih =>
    intro c hc hw
    cases hr : rstripR t with
    | nil =>
      rcases List.mem_cons.mp hc with h3 | h3
      · rw [rstripR, hr]
        by_cases hwa : isPyWs a
        · rw [h3] at hw; rw [hw] at hwa; simp at hwa
        · simp [hwa, h3]
      · exfalso
        have := rstripR_nil_all_ws t hr c h3
        rw [this] at hw; simp at hw
    | cons h2 t2 =>
      rw [rstripR, hr]
      rcases List.mem_cons.mp hc with h3 | h3
      · simp [h3]
      · have := ih c h3 hw
        rw [hr] at this
        exact List.mem_cons_of_mem a this

lemma mem_pyStrip_of_not_ws : ∀ (l : List Char) (c : Char),
    c ∈ l → isPyWs c = false → c ∈ pyStrip l := by
  intro l c hc hw
  exact mem_rstripR_of_not_ws _ _ (mem_lstripL_of_not_ws _ _ hc hw) hw

lemma pyStrip_cons_ws (c : Char) (s : List Char) (h : isPyWs c = true) :
    pyStrip (c :: s) = pyStrip s := by
  rw [pyStrip, pyStrip, lstripL, if_pos h]

lemma pyStrip_self_parts : ∀ l : List Char,
    pyStrip l = l → lstripL l = l ∧ rstripR l = l := by
  intro l h
  rcases lstripL_self_or_lt l with h1 | h1
  · refine ⟨h1, ?_⟩
    rw [pyStrip, h1] at h
    exact h
  · exfalso
    have h2 : (pyStrip l).length ≤ (lstripL l).length := rstripR_length_le _
    rw [h] at h2
    omega

lemma rstripR_append : ∀ (xs ys : List Char), rstripR ys ≠ [] →
    rstripR (xs ++ ys) = xs ++ rstripR ys := by
  intro xs
  induction xs with
  | nil => intro ys _; simp
  | cons x xs2 ih =>
    intro ys h
    have h2 := ih ys h
    cases hcase : xs2 ++ rstripR ys with
    | nil =>
      exfalso
      rcases List.append_eq_nil.mp hcase with ⟨-, h3⟩
      exact h h3
    | cons z zs =>
      have hx : rstripR (x :: (xs2 ++ ys)) = x :: z :: zs := by
        rw [rstripR, h2, hcase]
      rw [List.cons_append, hx, List.cons_append, hcase]

/-! ### Lemmas about `pySplit` and `pyJoin` -/

lemma map_eq_id_of : ∀ (l : List α) (f : α → α), (∀ x ∈ l, f x = x) → l.map f = l := by
  intro l f
  induction l with
  | nil => intro _; rfl
  | cons a t ih =>
    intro h
    rw [List.map_cons, h a (by simp), ih (fun x hx => h x (by simp [hx]))]

lemma pySplit_ne_nil : ∀ (sep : Char) (s : List Char), pySplit sep s ≠ [] := by
  intro sep s
  cases s with
  | nil => simp [pySplit]
  | cons c rest =>
    cases h : pySplit sep rest with
    | nil => simp [pySplit, h]
    | cons h2 t2 => by_cases hc : c = sep <;> simp [pySplit, h, hc]

lemma mem_pySplit_sep : ∀ (sep : Char) (s : List Char) (p : List Char),
    p ∈ pySplit sep s → sep ∉ p := by
  intro sep s
  induction s with
  | nil =>
    intro p hp
    simp [pySplit] at hp
    simp [hp]
  | cons c rest ih =>
    intro p hp
    cases h : pySplit sep rest with
    | nil => exact absurd h (pySplit_ne_nil sep rest)
    | cons h2 t2 =>
      by_cases hc : c = sep
      · simp only [pySplit, h] at hp
        rw [if_pos hc] at hp
        rcases List.mem_cons.mp hp with h3 | h3
        · simp [h3]
        · exact ih p (h ▸ h3)
      · simp only [pySplit, h] at hp
        rw [if_neg hc] at hp
        rcases List.mem_cons.mp hp with h3 | h3
        · rw [h3]
          intro hmem
          rcases List.mem_cons.mp hmem with h4 | h4
          · exact hc h4.symm
          · exact ih h2 (h ▸ List.mem_cons_self h2 t2) h4
        · exact ih p (h ▸ List.mem_cons_of_mem h2 h3)

lemma mem_of_mem_pySplit : ∀ (sep : Char) (s : List Char) (p : List Char) (c : Char),
    p ∈ pySplit sep s → c ∈ p → c ∈ s := by
  intro sep s
  induction s with
  | nil =>
    intro p c hp hc
    simp [pySplit] at hp
    rw [hp] at hc
    simp at hc
  | cons d rest ih =>
    intro p c hp hc
    cases h : pySplit sep rest with
    | nil => exact absurd h (pySplit_ne_nil sep rest)
    | cons h2 t2 =>
      by_cases hd : d = sep
      · simp only [pySplit, h] at hp
        rw [if_pos hd] at hp
        rcases List.mem_cons.mp hp with h3 | h3
        · rw [h3] at hc; simp at hc
        · exact List.mem_cons_of_mem d (ih p c (h ▸ h3) hc)
      · simp only [pySplit, h] at hp
        rw [if_neg hd] at hp
        rcases List.mem_cons.mp hp with h3 | h3
        · rw [h3] at hc
          rcases List.mem_cons.mp hc with h4 | h4
          · rw [h4]; exact List.mem_cons_self d rest
          · exact List.mem_cons_of_mem d
              (ih h2 c (h ▸ List.mem_cons_self h2 t2) h4)
        · exact List.mem_cons_of_mem d
            (ih p c (h ▸ List.mem_cons_of_mem h2 h3) hc)

lemma pySplit_no_sep : ∀ (sep : Char) (s : List Char), sep ∉ s → pySplit sep s = [s] := by
  intro sep s
  induction s with
  | nil => intro _; rfl
  | cons c rest ih =>
    intro h
    have hc : ¬(c = sep) := fun hcs => h (by rw [hcs]; exact List.mem_cons_self _ _)
    have hrest : sep ∉ rest := fun hm => h (List.mem_cons_of_mem c hm)
    simp only [pySplit, ih hrest]
    rw [if_neg hc]

lemma pySplit_append_sep : ∀ (sep : Char) (xs ys : List Char), sep ∉ xs →
    pySplit sep (xs ++ sep :: ys) = xs :: pySplit sep ys := by
  intro sep xs
  induction xs with
  | nil =>
    intro ys _
    cases h : pySplit sep ys with
    | nil => exact absurd h (pySplit_ne_nil sep ys)
    | cons h2 t2 =>
      simp only [List.nil_append]
      simp only [pySplit, h]
      simp
  | cons x xs2 ih =>
    intro ys h
    have hx : ¬(x = sep) := fun hxs => h (by rw [hxs]; exact List.mem_cons_self _ _)
    have hxs2 : sep ∉ xs2 := fun hm => h (List.mem_cons_of_mem x hm)
    have h2 := ih ys hxs2
    rw [List.cons_append]
    simp only [pySplit, h2]
    rw [if_neg hx]

lemma pyJoin_ne_nil : ∀ (sep : List Char) (e : List Char) (rest : List (List Char)),
    e ≠ [] → pyJoin sep (e :: rest) ≠ [] := by
  intro sep e rest he
  cases rest with
  | nil => simpa [pyJoin] using he
  | cons f rest2 =>
    rw [pyJoin]
    intro hcontra
    rcases List.append_eq_nil.mp hcontra with ⟨h1, -⟩
    rcases List.append_eq_nil.mp h1 with ⟨h3, -⟩
    exact he h3

lemma mem_pyJoin : ∀ (sep : List Char) (es : List (List Char)) (c : Char),
    c ∈ pyJoin sep es → c ∈ sep ∨ ∃ e ∈ es, c ∈ e := by
  intro sep es
  induction es with
  | nil => intro c hc; simp [pyJoin] at hc
  | cons e rest ih =>
    intro c hc
    cases rest with
    | nil =>
      right
      exact ⟨e, List.mem_cons_self _ _, by simpa [pyJoin] using hc⟩
    | cons f rest2 =>
      rw [pyJoin] at hc
      rcases List.mem_append.mp hc with h | h
      · rcases List.mem_append.mp h with h2 | h2
        · right; exact ⟨e, List.mem_cons_self _ _, h2⟩
        · left; exact h2
      · rcases ih c h with h2 | ⟨x, hx, hcx⟩
        · left; exact h2
        · right; exact ⟨x, List.mem_cons_of_mem e hx, hcx⟩

lemma pySplit_pyJoin : ∀ (rest : List (List Char)) (e : List Char),
    (',' : Char) ∉ e → (∀ x ∈ rest, (',' : Char) ∉ x) →
    pySplit ',' (pyJoin [',', ' '] (e :: rest))
      = e :: rest.map (fun x => ' ' :: x) := by
  intro rest
  induction rest with
  | nil =>
    intro e he _
    rw [pyJoin, pySplit_no_sep ',' e he]
    rfl
  | cons f rest2 ih =>
    intro e he hall
    have hjoin : pyJoin [',', ' '] (e :: f :: rest2)
        = e ++ ',' :: ' ' :: pyJoin [',', ' '] (f :: rest2) := by
      rw [pyJoin]
      simp [List.append_assoc]
    rw [hjoin, pySplit_append_sep ',' e _ he]
    congr 1
    have hih := ih f (hall f (List.mem_cons_self _ _))
      (fun x hx => hall x (List.mem_cons_of_mem f hx))
    simp only [pySplit, hih]
    rw [if_neg (by decide), List.map_cons]

lemma stripSplitCommas_pyJoin : ∀ es : List (List Char),
    (∀ e ∈ es, pyStrip e = e ∧ e ≠ [] ∧ (',' : Char) ∉ e) →
    stripSplitCommas (pyJoin [',', ' '] es) = es := by
  intro es h
  cases es with
  | nil => rfl
  | cons e rest =>
    have he := h e (List.mem_cons_self _ _)
    rw [stripSplitCommas,
      pySplit_pyJoin rest e he.2.2 (fun x hx => (h x (List.mem_cons_of_mem e hx)).2.2)]
    have hmap : ((e :: rest.map (fun x => ' ' :: x)).map pyStrip) = e :: rest := by
      rw [List.map_cons, he.1, List.map_map]
      congr 1
      have hfun : ∀ x ∈ rest, (pyStrip ∘ fun x => ' ' :: x) x = x := by
        intro x hx
        have hx2 := h x (List.mem_cons_of_mem e hx)
        simp only [Function.comp]
        rw [pyStrip_cons_ws ' ' x rfl, hx2.1]
      exact map_eq_id_of rest _ hfun
    rw [hmap]
    apply List.filter_eq_self.mpr
    intro a ha
    have ha2 := (h a ha).2.1
    simp [listIsEmpty_false, ha2]

lemma stripSplitCommas_elem : ∀ (r : List Char) (e : List Char),
    e ∈ stripSplitCommas r →
    pyStrip e = e ∧ e ≠ [] ∧ (',' : Char) ∉ e ∧ ∀ c ∈ e, c ∈ r := by
  intro r e he
  unfold stripSplitCommas at he
  have h1 := List.mem_of_mem_filter he
  have h2 := List.of_mem_filter he
  obtain ⟨q, hq, hqe⟩ := List.mem_map.mp h1
  refine ⟨?_, ?_, ?_, ?_⟩
  · rw [← hqe]; exact pyStrip_idem q
  · exact (listIsEmpty_false _).mp (by simpa using h2)
  · intro hc
    rw [← hqe] at hc
    exact mem_pySplit_sep ',' r q hq (mem_pyStrip hc)
  · intro c hc
    rw [← hqe] at hc
    exact mem_of_mem_pySplit ',' r q c hq (mem_pyStrip hc)

/-! ### Identity lemmas for re-parsing a joined recipient list -/

lemma validate_email_list_ne (r : List Char) (h : r ≠ []) :
    validate_email_list r = stripSplitCommas r := by
  rw [validate_email_list, if_neg (fun hcon => h ((listIsEmpty_true _).mp hcon))]

lemma clean_email_string_ne (r : List Char) (h : r ≠ []) :
    clean_email_string r
      = collectEmails (stripSplitCommas (replaceSemi (clean_header_text r))) := by
  rw [clean_email_string, if_neg (fun hcon => h ((listIsEmpty_true _).mp hcon))]

lemma lstripL_append_of : ∀ (e z : List Char),
    lstripL e = e → e ≠ [] → lstripL (e ++ z) = e ++ z := by
  intro e z h he
  cases e with
  | nil => exact absurd rfl he
  | cons a t =>
    have ha := lstripL_cons_head a t h
    simp [lstripL, ha, List.cons_append]

lemma rstripR_pyJoin : ∀ (rest : List (List Char)) (e : List Char),
    (∀ x ∈ e :: rest, rstripR x = x ∧ x ≠ []) →
    rstripR (pyJoin [',', ' '] (e :: rest)) = pyJoin [',', ' '] (e :: rest) := by
  intro rest
  induction rest with
  | nil =>
    intro e h
    rw [pyJoin]
    exact (h e (List.mem_cons_self _ _)).1
  | cons f rest2 ih =>
    intro e h
    have hJ2 := ih f (fun x hx => h x (List.mem_cons_of_mem e hx))
    have hfne : f ≠ [] := (h f (List.mem_cons_of_mem e (List.mem_cons_self _ _))).2
    have hJ2ne : pyJoin [',', ' '] (f :: rest2) ≠ [] := pyJoin_ne_nil _ f rest2 hfne
    rw [pyJoin, rstripR_append (e ++ [',', ' ']) _ (by rw [hJ2]; exact hJ2ne), hJ2]

lemma pyStrip_pyJoin : ∀ es : List (List Char),
    (∀ x ∈ es, pyStrip x = x ∧ x ≠ []) →
    pyStrip (pyJoin [',', ' '] es) = pyJoin [',', ' '] es := by
  intro es h
  cases es with
  | nil => rfl
  | cons e rest =>
    have he := h e (List.mem_cons_self _ _)
    obtain ⟨hel, -⟩ := pyStrip_self_parts e he.1
    have hparts : ∀ x ∈ e :: rest, rstripR x = x ∧ x ≠ [] := by
      intro x hx
      exact ⟨(pyStrip_self_parts x (h x hx).1).2, (h x hx).2⟩
    have hl : lstripL (pyJoin [',', ' '] (e :: rest)) = pyJoin [',', ' '] (e :: rest) := by
      cases rest with
      | nil => rw [pyJoin]; exact hel
      | cons f rest2 =>
        rw [pyJoin, List.append_assoc]
        exact lstripL_append_of e _ hel he.2
    rw [pyStrip, hl, rstripR_pyJoin rest e hparts]

lemma validate_join : ∀ raw : List Char,
    validate_email_list (pyJoin ((", ").data) (validate_email_list raw))
      = validate_email_list raw := by
  intro raw
  have hsep : ((", ").data) = [',', ' '] := rfl
  have hfacts : ∀ x ∈ validate_email_list raw,
      pyStrip x = x ∧ x ≠ [] ∧ (',' : Char) ∉ x := by
    intro x hx
    unfold validate_email_list at hx
    by_cases h0 : raw.isEmpty
    · rw [if_pos h0] at hx; simp at hx
    · rw [if_neg h0] at hx
      obtain ⟨a, b, c, -⟩ := stripSplitCommas_elem raw x hx
      exact ⟨a, b, c⟩
  cases hes : validate_email_list raw with
  | nil => rfl
  | cons e rest =>
    have hfacts2 : ∀ x ∈ (e :: rest),
        pyStrip x = x ∧ x ≠ [] ∧ (',' : Char) ∉ x := hes ▸ hfacts
    have hene : e ≠ [] := (hfacts2 e (List.mem_cons_self _ _)).2.1
    have hJne : pyJoin ((", ").data) (e :: rest) ≠ [] := by
      rw [hsep]
      exact pyJoin_ne_nil _ e rest hene
    rw [validate_email_list_ne _ hJne, hsep, stripSplitCommas_pyJoin _ hfacts2]

/-! ### Lemmas about `findAngle` and the `clean_email_string` pipeline -/

lemma findAngle_none : ∀ s : List Char, ('<' : Char) ∉ s → findAngle s = none := by
  intro s
  induction s with
  | nil => intro _; rfl
  | cons c rest ih =>
    intro h
    have hc : ¬(c = '<') := fun he => h (by rw [he]; exact List.mem_cons_self _ _)
    have hrest : ('<' : Char) ∉ rest := fun hm => h (List.mem_cons_of_mem c hm)
    rw [findAngle, if_neg hc]
    exact ih hrest

lemma findAngle_some_facts : ∀ (s inner : List Char), findAngle s = some inner →
    ∀ c ∈ inner, c ∈ s ∧ angleInnerChar c = true := by
  intro s
  induction s with
  | nil => intro inner h; simp [findAngle] at h
  | cons d rest ih =>
    intro inner h c hc
    by_cases hd : d = '<'
    · rw [findAngle, if_pos hd] at h
      cases hdw : rest.dropWhile angleInnerChar with
      | nil =>
        simp only [hdw] at h
        have := ih inner h c hc
        exact ⟨List.mem_cons_of_mem d this.1, this.2⟩
      | cons x xs =>
        simp only [hdw] at h
        by_cases hx : x = '>'
        · rw [if_pos hx] at h
          by_cases hemp : (rest.takeWhile angleInnerChar).isEmpty
          · rw [if_pos hemp] at h
            have := ih inner h c hc
            exact ⟨List.mem_cons_of_mem d this.1, this.2⟩
          · rw [if_neg hemp] at h
            injection h with h2
            rw [← h2] at hc
            exact ⟨List.mem_cons_of_mem d ((List.takeWhile_sublist _).mem hc),
              List.mem_takeWhile_imp hc⟩
        · rw [if_neg hx] at h
          have := ih inner h c hc
          exact ⟨List.mem_cons_of_mem d this.1, this.2⟩
    · rw [findAngle, if_neg hd] at h
      have := ih inner h c hc
      exact ⟨List.mem_cons_of_mem d this.1, this.2⟩

lemma replaceSemi_mem : ∀ (l : List Char) (c : Char),
    c ∈ replaceSemi l → c = ',' ∨ c ∈ l := by
  intro l c h
  obtain ⟨d, hd, he⟩ := List.mem_map.mp h
  by_cases hsd : d = ';'
  · left; rw [← he]; simp [hsd]
  · right
    rw [← he]
    simp only [if_neg hsd]
    exact hd

lemma replaceSemi_no_semi : ∀ l : List Char, (';' : Char) ∉ replaceSemi l := by
  intro l h
  obtain ⟨d, hd, he⟩ := List.mem_map.mp h
  by_cases hsd : d = ';'
  · simp only [if_pos hsd] at he
    exact absurd he (by decide)
  · simp only [if_neg hsd] at he
    exact hsd he

lemma removeChar_facts : ∀ (x : Char) (l : List Char) (c : Char),
    c ∈ removeChar x l → c ∈ l ∧ ¬(c = x) := by
  intro x l c h
  unfold removeChar at h
  refine ⟨List.mem_of_mem_filter h, ?_⟩
  have h2 := List.of_mem_filter h
  simpa using h2

lemma removeChar_id : ∀ (x : Char) (l : List Char),
    (∀ c ∈ l, ¬(c = x)) → removeChar x l = l := by
  intro x l h
  apply List.filter_eq_self.mpr
  intro a ha
  simpa using h a ha

lemma clean_header_mem : ∀ (t : List Char) (c : Char), c ∈ clean_header_text t →
    c ∈ t ∧ ¬(c = '\x00') ∧ ¬(c = '�') := by
  intro t c h
  unfold clean_header_text at h
  by_cases h0 : t.isEmpty
  · rw [if_pos h0] at h; simp at h
  · rw [if_neg h0] at h
    have h1 := mem_pyStrip h
    obtain ⟨h2, h3⟩ := removeChar_facts _ _ _ h1
    obtain ⟨h4, h5⟩ := removeChar_facts _ _ _ h2
    exact ⟨h4, h5, h3⟩

lemma collectEmails_elem : ∀ (parts : List (List Char)) (e : List Char),
    e ∈ collectEmails parts →
    ∃ part ∈ parts,
      (∃ inner, findAngle part = some inner ∧ e = pyStrip inner) ∨
      (findAngle part = none ∧ ('@' : Char) ∈ part ∧ e = pyStrip part) := by
  intro parts
  induction parts with
  | nil => intro e he; simp [collectEmails] at he
  | cons part rest ih =>
    intro e he
    cases hfa : findAngle part with
    | some inner =>
      simp only [collectEmails, hfa] at he
      rcases List.mem_cons.mp he with h | h
      · exact ⟨part, List.mem_cons_self _ _, Or.inl ⟨inner, hfa, h⟩⟩
      · obtain ⟨p2, hp2, hc2⟩ := ih e h
        exact ⟨p2, List.mem_cons_of_mem part hp2, hc2⟩
    | none =>
      simp only [collectEmails, hfa] at he
      by_cases hat : ('@' : Char) ∈ part
      · rw [if_pos hat] at he
        rcases List.mem_cons.mp he with h | h
        · exact ⟨part, List.mem_cons_self _ _, Or.inr ⟨hfa, hat, h⟩⟩
        · obtain ⟨p2, hp2, hc2⟩ := ih e h
          exact ⟨p2, List.mem_cons_of_mem part hp2, hc2⟩
      · rw [if_neg hat] at he
        obtain ⟨p2, hp2, hc2⟩ := ih e he
        exact ⟨p2, List.mem_cons_of_mem part hp2, hc2⟩

lemma collectEmails_id : ∀ es : List (List Char),
    (∀ e ∈ es, findAngle e = none ∧ ('@' : Char) ∈ e ∧ pyStrip e = e) →
    collectEmails es = es := by
  intro es
  induction es with
  | nil => intro _; rfl
  | cons e rest ih =>
    intro h
    have he := h e (List.mem_cons_self _ _)
    simp only [collectEmails, he.1]
    rw [if_pos he.2.1, he.2.2, ih (fun x hx => h x (List.mem_cons_of_mem e hx))]

lemma clean_parts_facts : ∀ (raw part : List Char),
    part ∈ stripSplitCommas (replaceSemi (clean_header_text raw)) →
    pyStrip part = part ∧ part ≠ [] ∧ (',' : Char) ∉ part ∧ (';' : Char) ∉ part ∧
      ('\x00' : Char) ∉ part ∧ ('�' : Char) ∉ part ∧
      (∀ c ∈ part, c = ',' ∨ c ∈ raw) := by
  intro raw part hp
  obtain ⟨h1, h2, h3, h4⟩ := stripSplitCommas_elem _ _ hp
  refine ⟨h1, h2, h3, ?_, ?_, ?_, ?_⟩
  · intro hsemi; exact replaceSemi_no_semi _ (h4 ';' hsemi)
  · intro h0
    rcases replaceSemi_mem _ _ (h4 _ h0) with hc | hc
    · exact absurd hc (by decide)
    · exact (clean_header_mem _ _ hc).2.1 rfl
  · intro h0
    rcases replaceSemi_mem _ _ (h4 _ h0) with hc | hc
    · exact absurd hc (by decide)
    · exact (clean_header_mem _ _ hc).2.2 rfl
  · intro c hc
    rcases replaceSemi_mem _ _ (h4 c hc) with h | h
    · left; exact h
    · right; exact (clean_header_mem _ _ h).1

lemma clean_elem_facts : ∀ (raw e : List Char), e ∈ clean_email_string raw →
    pyStrip e = e ∧ (',' : Char) ∉ e ∧ (';' : Char) ∉ e ∧
      ('\x00' : Char) ∉ e ∧ ('�' : Char) ∉ e ∧ findAngle e = none := by
  intro raw e he
  unfold clean_email_string at he
  by_cases h0 : raw.isEmpty
  · rw [if_pos h0] at he; simp at he
  · rw [if_neg h0] at he
    obtain ⟨part, hpart, hcase⟩ := collectEmails_elem _ _ he
    obtain ⟨p1, -, p3, p4, p5, p6, -⟩ := clean_parts_facts raw part hpart
    rcases hcase with ⟨inner, hfa, rfl⟩ | ⟨hfa, hat, rfl⟩
    · have hsub := findAngle_some_facts part inner hfa
      refine ⟨pyStrip_idem inner, ?_, ?_, ?_, ?_, ?_⟩
      · intro hc; exact p3 (hsub ',' (mem_pyStrip hc)).1
      · intro hc; exact p4 (hsub ';' (mem_pyStrip hc)).1
      · intro hc; exact p5 (hsub _ (mem_pyStrip hc)).1
      · intro hc; exact p6 (hsub _ (mem_pyStrip hc)).1
      · apply findAngle_none
        intro hlt
        have := (hsub '<' (mem_pyStrip hlt)).2
        simp [angleInnerChar] at this
    · exact ⟨by rw [p1]; exact p1, by rw [p1]; exact p3, by rw [p1]; exact p4,
        by rw [p1]; exact p5, by rw [p1]; exact p6, by rw [p1]; exact hfa⟩

lemma clean_email_join : ∀ raw : List Char,
    (∀ e ∈ clean_email_string raw, ('@' : Char) ∈ e) →
    clean_email_string (pyJoin ((", ").data) (clean_email_string raw))
      = clean_email_string raw := by
  intro raw hat
  have hsep : ((", ").data) = [',', ' '] := rfl
  have hfacts : ∀ x ∈ clean_email_string raw,
      pyStrip x = x ∧ x ≠ [] ∧ (',' : Char) ∉ x ∧ (';' : Char) ∉ x ∧
      ('\x00' : Char) ∉ x ∧ ('�' : Char) ∉ x ∧ findAngle x = none ∧
      ('@' : Char) ∈ x := by
    intro x hx
    obtain ⟨a, b, c2, d, e2, f⟩ := clean_elem_facts raw x hx
    have hx2 := hat x hx
    have hne : x ≠ [] := by rintro rfl; simp at hx2
    exact ⟨a, hne, b, c2, d, e2, f, hx2⟩
  cases hes : clean_email_string raw with
  | nil => rfl
  | cons e rest =>
    have hfacts2 : ∀ x ∈ (e :: rest),
        pyStrip x = x ∧ x ≠ [] ∧ (',' : Char) ∉ x ∧ (';' : Char) ∉ x ∧
        ('\x00' : Char) ∉ x ∧ ('�' : Char) ∉ x ∧ findAngle x = none ∧
        ('@' : Char) ∈ x := hes ▸ hfacts
    have hene : e ≠ [] := (hfacts2 e (List.mem_cons_self _ _)).2.1
    have hJne : pyJoin [',', ' '] (e :: rest) ≠ [] :=
      pyJoin_ne_nil _ e rest hene
    have hmemJ : ∀ c ∈ pyJoin [',', ' '] (e :: rest),
        (c = ',' ∨ c = ' ') ∨ ∃ x ∈ (e :: rest), c ∈ x := by
      intro c hc
      rcases mem_pyJoin _ _ _ hc with h | h
      · left
        rcases List.mem_cons.mp h with h2 | h2
        · left; exact h2
        · right; simpa using h2
      · right; exact h
    have hno0 : ∀ c ∈ pyJoin [',', ' '] (e :: rest), ¬(c = '\x00') := by
      intro c hc hc0
      rcases hmemJ c hc with h | ⟨x, hx, hcx⟩
      · rcases h with h | h <;> rw [hc0] at h <;> exact absurd h (by decide)
      · rw [hc0] at hcx
        exact (hfacts2 x hx).2.2.2.2.1 hcx
    have hnoR : ∀ c ∈ pyJoin [',', ' '] (e :: rest), ¬(c = '�') := by
      intro c hc hc0
      rcases hmemJ c hc with h | ⟨x, hx, hcx⟩
      · rcases h with h | h <;> rw [hc0] at h <;> exact absurd h (by decide)
      · rw [hc0] at hcx
        exact (hfacts2 x hx).2.2.2.2.2.1 hcx
    have hch : clean_header_text (pyJoin [',', ' '] (e :: rest))
        = pyJoin [',', ' '] (e :: rest) := by
      unfold clean_header_text
      rw [if_neg (fun hcon => hJne ((listIsEmpty_true _).mp hcon)),
        removeChar_id _ _ hno0,
        removeChar_id _ _ hnoR,
        pyStrip_pyJoin _ (fun x hx => ⟨(hfacts2 x hx).1, (hfacts2 x hx).2.1⟩)]
    have hrs : replaceSemi (pyJoin [',', ' '] (e :: rest))
        = pyJoin [',', ' '] (e :: rest) := by
      apply map_eq_id_of
      intro c hc
      have hcs : ¬(c = ';') := by
        intro hc0
        rcases hmemJ c hc with h | ⟨x, hx, hcx⟩
        · rcases h with h | h <;> rw [hc0] at h <;> exact absurd h (by decide)
        · rw [hc0] at hcx
          exact (hfacts2 x hx).2.2.2.1 hcx
      rw [if_neg hcs]
    rw [hsep, clean_email_string_ne _ hJne, hch, hrs,
      stripSplitCommas_pyJoin _
        (fun x hx => ⟨(hfacts2 x hx).1, (hfacts2 x hx).2.1, (hfacts2 x hx).2.2.1⟩),
      collectEmails_id _
        (fun x hx => ⟨(hfacts2 x hx).2.2.2.2.2.2.1, (hfacts2 x hx).2.2.2.2.2.2.2,
          (hfacts2 x hx).1⟩)]

/-! ### Claims C1 and C6 (amended parts) -/

/-- Claim C1 (amended): `clean_email_string` keeps a non-bracketed token
only when it contains `"@"`, so for any raw header without `<` every
derived recipient contains `"@"`.  (As stated for all parsers the claim
fails: `validate_email_list` keeps entries without `"@"`, and an
angle-bracket capture need not contain `"@"` — see
`claim1_counterexample`.) -/
theorem claim1_theorem (raw : List Char) (h : ('<' : Char) ∉ raw) :
    ∀ e ∈ clean_email_string raw, ('@' : Char) ∈ e := by
  intro e he
  unfold clean_email_string at he
  by_cases h0 : raw.isEmpty
  · rw [if_pos h0] at he; simp at he
  · rw [if_neg h0] at he
    obtain ⟨part, hpart, hcase⟩ := collectEmails_elem _ _ he
    obtain ⟨p1, -, -, -, -, -, p7⟩ := clean_parts_facts raw part hpart
    have hlt : ('<' : Char) ∉ part := by
      intro hin
      rcases p7 '<' hin with h2 | h2
      · exact absurd h2 (by decide)
      · exact h h2
    have hfa : findAngle part = none := findAngle_none part hlt
    rcases hcase with ⟨inner, hfa2, rfl⟩ | ⟨-, hat, rfl⟩
    · rw [hfa] at hfa2; simp at hfa2
    · rw [p1]; exact hat

/-- Witness for C1 (amended) at a concrete bracket-free header. -/
theorem claim1_witness : ('@' : Char) ∈ (("a@x.com").data) :=
  claim1_theorem (("a@x.com, junk; b@y.com").data) (by decide)
    (("a@x.com").data) (by decide)

/-- Claim C6 (amended): parsing `"a@x.com, b@x.com"` yields
`["a@x.com","b@x.com"]` under both parsers; `validate_email_list` is
idempotent under re-joining for every input; `clean_email_string` is
idempotent under re-joining whenever every element of the first parse
contains `"@"` (which fails only for angle-bracket captures without
`"@"` — see `claim6_counterexample`). -/
theorem claim6_theorem :
    clean_email_string (("a@x.com, b@x.com").data)
      = [(("a@x.com").data), (("b@x.com").data)] ∧
    validate_email_list (("a@x.com, b@x.com").data)
      = [(("a@x.com").data), (("b@x.com").data)] ∧
    (∀ raw : List Char,
      validate_email_list (pyJoin ((", ").data) (validate_email_list raw))
        = validate_email_list raw) ∧
    (∀ raw : List Char, (∀ e ∈ clean_email_string raw, ('@' : Char) ∈ e) →
      clean_email_string (pyJoin ((", ").data) (clean_email_string raw))
        = clean_email_string raw) :=
  ⟨by decide, by decide, validate_join, clean_email_join⟩

/-- Witness for C6 (amended) at a concrete input. -/
theorem claim6_witness :
    clean_email_string (pyJoin ((", ").data) (clean_email_string (("c@d.e").data)))
      = clean_email_string (("c@d.e").data) :=
  claim6_theorem.2.2.2 _ (by decide)

end StreamlitPoc
